import Mathlib

/-!
# Reaction collector: page navigation and reaction synchronisation

A shallow embedding of `src/collectors/reactionCollector.js`: the `Controller`
class (page history, `goTo`, `back`, `update`), the `collect` handler installed
by `ReactionCollector.menu`, and `__createYesNoReactionCollector`.

Conventions of the embedding.

* A JavaScript value that is either a page object, `null` or `undefined` is a
  `Slot`.  Page objects are the only truthy slots.
* The Discord message is a record holding the payload of the last `edit`, the
  reactions currently on the message (emoji key with the users that reacted,
  in order of first appearance) and the log of every transport call issued.
  Every transport call succeeds and takes effect in the order it is issued;
  `Promise.all (xs.map react)` issues its calls in array order.
* Asynchronous functions run to completion: `update()` started by `goTo` and
  `back` is finished before the next operation begins.
* A string is falsy exactly when it is empty.
-/

namespace ReactionCollector

/-- A reaction key: a custom emoji id or a standard emoji name. -/
abbrev Key := String

/-- A Discord user id. -/
abbrev UserId := String

/-- A page of the menu.  `reactions`, `backEmoji`, `pages` and `onReact`
are `none` when the property is not declared on the page object;
`clearReactions` is `false` when it is absent.  `onReact` holds a handle
to a caller-supplied function. -/
inductive Page where
  | mk (id : Option String) (content : String) (reactions : Option (List Key))
      (backEmoji : Option Key) (clearReactions : Bool)
      (pages : Option (List (Key × Page))) (onReact : Option Nat) : Page

namespace Page

/-- The property `id`. -/
def id : Page → Option String
  | mk i _ _ _ _ _ _ => i

/-- The property `content`. -/
def content : Page → String
  | mk _ c _ _ _ _ _ => c

/-- The property `reactions`. -/
def reactions : Page → Option (List Key)
  | mk _ _ r _ _ _ _ => r

/-- The property `backEmoji`. -/
def backEmoji : Page → Option Key
  | mk _ _ _ b _ _ _ => b

/-- The property `clearReactions`. -/
def clearReactions : Page → Bool
  | mk _ _ _ _ c _ _ => c

/-- The property `pages`: the children of the page. -/
def pages : Page → Option (List (Key × Page))
  | mk _ _ _ _ _ p _ => p

/-- The property `onReact`. -/
def onReact : Page → Option Nat
  | mk _ _ _ _ _ _ f => f

end Page

/-- The value of a page-valued JavaScript variable. -/
inductive Slot where
  | null : Slot
  | undefined : Slot
  | page (p : Page) : Slot

/-- JavaScript truthiness of a slot. -/
def Slot.truthy : Slot → Bool
  | .page _ => true
  | _ => false

/-- The JavaScript expression `a || b` on slots. -/
def Slot.or (a b : Slot) : Slot :=
  match a with
  | .page p => .page p
  | _ => b

/-- The JavaScript test `v != null`: false for `null` and for `undefined`. -/
def Slot.notNull : Slot → Bool
  | .null => false
  | .undefined => false
  | .page _ => true

mutual
/-- Every node of a page, itself first, then its descendants depth-first. -/
def Page.nodes : Page → List Page
  | .mk i c r b cl ps f => Page.mk i c r b cl ps f :: nodesOpt ps
/-- Nodes below an optional child mapping. -/
def nodesOpt : Option (List (Key × Page)) → List Page
  | none => []
  | some m => nodesMap m
/-- Nodes of a mapping from keys to pages, in key order. -/
def nodesMap : List (Key × Page) → List Page
  | [] => []
  | (_, p) :: rest => Page.nodes p ++ nodesMap rest
end

/-- Modelled from the spec: `findRecursively` of `src/util/find`, called with
`key: 'id', type: 'object'`.  It walks the nested page mappings depth-first
and collects every node that exposes an `id` field. -/
def findRecursivelyId (pages : List (Key × Page)) : List Page :=
  (nodesMap pages).filter (fun p => p.id.isSome)

/-- Modelled from the spec: `findRecursively` of `src/util/find`, called with
`key: 'reactions', type: 'array'`: every `reactions` entry found at any
depth, flattened. -/
def findRecursivelyReactions (pages : List (Key × Page)) : List Key :=
  (nodesMap pages).foldr (fun p acc => p.reactions.getD [] ++ acc) []

/-- Modelled from the spec: `findRecursively` of `src/util/find`, called with
`key: 'backEmoji', type: 'value'`: every `backEmoji` found at any depth. -/
def findRecursivelyBackEmoji (pages : List (Key × Page)) : List Key :=
  (nodesMap pages).filterMap Page.backEmoji

/-- The list `allReactions` of `menu`: the top-level keys, then every
declared reaction, then every back emoji. -/
def allReactions (pages : List (Key × Page)) : List Key :=
  pages.map Prod.fst ++ findRecursivelyReactions pages ++ findRecursivelyBackEmoji pages

/-- A call made to the Discord transport. -/
inductive Call where
  | removeAll : Call
  | edit (payload : Slot) : Call
  | react (k : Key) : Call
  | removeUser (k : Key) (u : UserId) : Call

/-- The bot message: the id of the bot account, the payload of the last
`edit` (if any), the reactions on the message and the log of calls. -/
structure Message where
  botId : UserId
  edited : Option Slot
  reactions : List (Key × List UserId)
  log : List Call

/-- Adding the reaction of user `u` with emoji `k`. -/
def addUser (k : Key) (u : UserId) : List (Key × List UserId) → List (Key × List UserId)
  | [] => [(k, [u])]
  | (k1, us) :: rest =>
    if k1 = k then (k1, if u ∈ us then us else us ++ [u]) :: rest
    else (k1, us) :: addUser k u rest

/-- Removing the reaction of user `u` with emoji `k`; an emoji nobody
reacts with any more leaves the message. -/
def dropUser (k : Key) (u : UserId) : List (Key × List UserId) → List (Key × List UserId)
  | [] => []
  | (k1, us) :: rest =>
    if k1 = k then
      (if (us.filter (fun v => v ≠ u)).isEmpty then rest
       else (k1, us.filter (fun v => v ≠ u)) :: rest)
    else (k1, us) :: dropUser k u rest

namespace Message

/-- The call `botMessage.reactions.removeAll()`. -/
def removeAll (m : Message) : Message :=
  { m with reactions := [], log := m.log ++ [Call.removeAll] }

/-- The call `botMessage.edit(payload)`. -/
def edit (m : Message) (payload : Slot) : Message :=
  { m with edited := some payload, log := m.log ++ [Call.edit payload] }

/-- The call `botMessage.react(k)`. -/
def react (m : Message) (k : Key) : Message :=
  { m with reactions := addUser k m.botId m.reactions, log := m.log ++ [Call.react k] }

/-- The call `reaction.users.remove(u)` for the reaction with key `k`. -/
def removeUser (m : Message) (k : Key) (u : UserId) : Message :=
  { m with reactions := dropUser k u m.reactions, log := m.log ++ [Call.removeUser k u] }

/-- The emoji keys on the message, in order. -/
def keys (m : Message) : List Key :=
  m.reactions.map Prod.fst

/-- The emoji keys the bot itself reacted with, in order. -/
def botKeys (m : Message) : List Key :=
  (m.reactions.filter (fun e => decide (m.botId ∈ e.2))).map Prod.fst

end Message

/-- The state of a `Controller` object (the collector handles apart). -/
structure Controller where
  botMessage : Message
  pages : List (Key × Page)
  lastPage : Slot
  currentPage : Slot

/-- A value thrown by the code, or the reason of a rejected promise. -/
inductive Thrown where
  | invalidGoTo (pageId : String) : Thrown
  | invalidBack : Thrown
  | typeError : Thrown
  | callback (n : Nat) : Thrown

/-- The state after an operation, with the value it threw, if any. -/
structure Outcome where
  state : Controller
  thrown : Option Thrown

namespace Controller

/-- The constructor: both page slots start as `null`. -/
def new (botMessage : Message) (pages : List (Key × Page)) : Controller :=
  { botMessage := botMessage, pages := pages, lastPage := Slot.null, currentPage := Slot.null }

/-- The setter `set lastPage(value)`. -/
def setLastPage (c : Controller) (value : Slot) : Controller :=
  { c with lastPage := value }

/-- The setter `set currentPage(value)`:
`this.lastPage = this.currentPage || value; this._currentPage = value`. -/
def setCurrentPage (c : Controller) (value : Slot) : Controller :=
  { c.setLastPage (c.currentPage.or value) with currentPage := value }

/-- The getter `canBack`: `this.lastPage != null`. -/
def canBack (c : Controller) : Bool :=
  c.lastPage.notNull

/-- The reactions `update` re-adds after the page reactions: the back emoji
when the property is truthy. -/
def reactBackEmoji (m : Message) (p : Page) : Message :=
  match p.backEmoji with
  | some b => if b = "" then m else m.react b
  | none => m

/-- The method `update(onlyMessage)`.  With a current page that is not an
object the read of `this.currentPage.reactions` rejects the promise after
the reactions were removed and the message was edited. -/
def update (c : Controller) (onlyMessage : Bool) : Outcome :=
  if onlyMessage then
    { state := { c with botMessage := c.botMessage.edit c.currentPage }, thrown := none }
  else
    let m1 := c.botMessage.removeAll
    let m2 := m1.edit c.currentPage
    match c.currentPage with
    | Slot.page p =>
      let m3 := match p.reactions with
        | some rs => rs.foldl Message.react m2
        | none => m2
      { state := { c with botMessage := reactBackEmoji m3 p }, thrown := none }
    | _ => { state := { c with botMessage := m2 }, thrown := some Thrown.typeError }

/-- The method `goTo(pageId)`.  The call `this.update()` is not awaited, so a
rejection of its promise is not thrown by `goTo`. -/
def goTo (c : Controller) (pageId : String) : Outcome :=
  match (findRecursivelyId c.pages).find? (fun page => page.id == some pageId) with
  | none => { state := c, thrown := some (Thrown.invalidGoTo pageId) }
  | some page =>
    { state := ((c.setCurrentPage (Slot.page page)).update false).state, thrown := none }

/-- The method `back()`. -/
def back (c : Controller) : Outcome :=
  if c.canBack then
    let aux := c.currentPage
    let c1 := c.setCurrentPage c.lastPage
    let c2 := c1.setLastPage aux
    { state := (c2.update false).state, thrown := none }
  else { state := c, thrown := some Thrown.invalidBack }

end Controller

/-- The emoji of a reaction: `id` is `null` for a standard emoji. -/
structure Emoji where
  id : Option String
  name : String

/-- A reaction event delivered by the transport. -/
structure MessageReaction where
  emoji : Emoji

/-- The user the session is created for. -/
structure User where
  id : UserId
  bot : Bool

/-- The expression `reaction.emoji.id || reaction.emoji.name`. -/
def emojiKey (e : Emoji) : Key :=
  match e.id with
  | some i => if i = "" then e.name else i
  | none => e.name

/-- The test `list.includes(emoji.id)`: a `null` id is no element of a list
of strings. -/
def includesId (list : List Key) (e : Emoji) : Bool :=
  match e.id with
  | some i => list.contains i
  | none => false

/-- The filter of `menu`, of `__createReactionCollector` and of
`__createYesNoReactionCollector`, over the list of recognised keys:
`u.id === user.id && (list.includes(r.emoji.id) || list.includes(r.emoji.name))
&& !user.bot`. -/
def filter (list : List Key) (user : User) (r : MessageReaction) (u : User) : Bool :=
  decide (u.id = user.id) && (includesId list r.emoji || list.contains r.emoji.name) && !user.bot

/-- The condition of the back branch of the `collect` handler of `menu`:
`controller.currentPage && emoji == controller.currentPage.backEmoji &&
controller.canBack`. -/
def backBranch (c : Controller) (emoji : Key) : Bool :=
  match c.currentPage with
  | Slot.page p => decide (p.backEmoji = some emoji) && c.canBack
  | _ => false

/-- The property read `obj[emoji]` on a mapping from keys to pages. -/
def lookupPage (m : List (Key × Page)) (emoji : Key) : Slot :=
  match m.lookup emoji with
  | some p => Slot.page p
  | none => Slot.undefined

/-- The expression `controller.currentPage && controller.currentPage.pages ?
controller.currentPage.pages[emoji] : pages[emoji]`. -/
def nextPage (c : Controller) (emoji : Key) : Slot :=
  match c.currentPage with
  | Slot.page p =>
    match p.pages with
    | some children => lookupPage children emoji
    | none => lookupPage c.pages emoji
  | _ => lookupPage c.pages emoji

/-- The reaction handling of the `collect` handler for the page that is
current once `onReact` has returned. -/
def syncReactions (user : User) (reaction : MessageReaction) (c : Controller) (q : Page) :
    Controller :=
  if q.clearReactions then
    { c with botMessage := c.botMessage.removeAll }
  else
    match q.reactions with
    | some rs => { c with botMessage := rs.foldl Message.react c.botMessage.removeAll }
    | none => { c with botMessage := c.botMessage.removeUser (emojiKey reaction.emoji) user.id }

/-- The `collect` handler that `menu` installs on the reaction collector.
`onReact n` is the behaviour of the caller-supplied function with handle `n`.
`thrown` is the value caught and logged by the `try`/`catch` of the handler. -/
def onCollect (onReact : Nat → Controller → MessageReaction → Outcome) (user : User)
    (c : Controller) (reaction : MessageReaction) : Outcome :=
  let emoji := emojiKey reaction.emoji
  if backBranch c emoji then
    c.back
  else
    let c1 := c.setCurrentPage (nextPage c emoji)
    match c1.currentPage with
    | Slot.page q =>
      let r := match q.onReact with
        | some n => onReact n c1 reaction
        | none => { state := c1, thrown := none }
      match r.thrown with
      | some e => { state := r.state, thrown := some e }
      | none =>
        match r.state.currentPage with
        | Slot.page q1 => (syncReactions user reaction r.state q1).update true
        | _ => { state := r.state, thrown := some Thrown.typeError }
    | _ =>
      ({ c1 with botMessage := c1.botMessage.removeUser emoji user.id }).update true

/-- The first statement of `menu` after the handler is installed:
`Promise.all(Object.keys(pages).map(r => botMessage.react(r)))`, and the
controller it returns. -/
def menu (botMessage : Message) (pages : List (Key × Page)) : Controller :=
  Controller.new ((pages.map Prod.fst).foldl Message.react botMessage) pages

/-- The options of the yes/no prompt that decide its result. -/
structure AsyncCollectorOptions where
  reactions : List Key
  user : User
  deleteReaction : Bool
  deleteAllOnEnd : Bool

/-- The expression `reactionCollected.emoji.name || reactionCollected.emoji.id`.
A collected `MessageReaction` always has an `emoji` object, so the other arm
of the conditional in the source is never taken. -/
def yesNoKey (e : Emoji) : Option Key :=
  if e.name = "" then e.id else some e.name

/-- The test `reactions.indexOf(k) === 0`. -/
def indexOfIsZero (reactions : List Key) (k : Option Key) : Bool :=
  match k, reactions with
  | some x, y :: _ => decide (y = x)
  | _, _ => false

/-- The part of `__createYesNoReactionCollector` after `awaitReactions` has
resolved with `caughtReactions` (in order of collection): the message after
the clean-up calls and the value the promise resolves with. -/
def createYesNoReactionCollector (o : AsyncCollectorOptions) (botMessage : Message)
    (caughtReactions : List MessageReaction) : Message × Bool :=
  match caughtReactions with
  | reactionCollected :: _ =>
    let m1 := if o.deleteReaction then
        botMessage.removeUser (emojiKey reactionCollected.emoji) o.user.id
      else botMessage
    let m2 := if o.deleteAllOnEnd then m1.removeAll else m1
    (m2, indexOfIsZero o.reactions (yesNoKey reactionCollected.emoji))
  | [] => (botMessage, false)

/-! ## Auxiliary definitions and sample sessions -/

/-- The outcome of the `onReact` stage of the handler for the resolved page `q`. -/
def reactStage (onReact : Nat → Controller → MessageReaction → Outcome) (c : Controller)
    (reaction : MessageReaction) (q : Page) : Outcome :=
  match q.onReact with
  | some n => onReact n (c.setCurrentPage (Slot.page q)) reaction
  | none => { state := c.setCurrentPage (Slot.page q), thrown := none }

/-- A message without reactions that was never edited. -/
def msg0 : Message :=
  { botId := "bot", edited := none, reactions := [], log := [] }

/-- A top-level page with id `p0`. -/
def pageP0 : Page := Page.mk (some "p0") "zero" none none false none none

/-- A top-level page with id `p1`. -/
def pageP1 : Page := Page.mk (some "p1") "one" none none false none none

/-- A top-level page with id `p2`. -/
def pageP2 : Page := Page.mk (some "p2") "two" none none false none none

/-- Three top-level pages with ids `p0`, `p1`, `p2`. -/
def tree3 : List (Key × Page) :=
  [("a", pageP0), ("b", pageP1), ("c", pageP2)]

/-- The controller after `goTo` of `p0`, `p1` and `p2` from construction. -/
def afterThree : Controller :=
  ((((Controller.new msg0 tree3).goTo "p0").state.goTo "p1").state.goTo "p2").state

/-- The authorised user of the sample sessions. -/
def userU : User := { id := "u1", bot := false }

/-- No page of the sample sessions declares `onReact`. -/
def noCallbacks : Nat → Controller → MessageReaction → Outcome :=
  fun _ c _ => { state := c, thrown := none }

/-- A reaction with the standard emoji `k`. -/
def std (k : Key) : MessageReaction := { emoji := { id := none, name := k } }

/-- The message once user `u` has added the reaction `k`, which is what the
transport does before it emits `collect`. -/
def userReacted (c : Controller) (k : Key) (u : UserId) : Controller :=
  { c with botMessage := { c.botMessage with reactions := addUser k u c.botMessage.reactions } }

/-- A page that shows the reaction `B` and has no children. -/
def pageLeaf : Page := Page.mk none "leaf" (some ["B"]) none false none none

/-- The page tree `{ A: { reactions: [B] } }`. -/
def treeLeaf : List (Key × Page) := [("A", pageLeaf)]

/-- The sample menu on `treeLeaf` after the user pressed `A`. -/
def leafOpened : Controller :=
  (onCollect noCallbacks userU (userReacted (menu msg0 treeLeaf) "A" "u1") (std "A")).state

/-- The sample menu on `treeLeaf` after the user pressed `A` and then `B`. -/
def leafThenB : Controller :=
  (onCollect noCallbacks userU (userReacted leafOpened "B" "u1") (std "B")).state

/-- The reactions after user `u` reacted with each key of `ks` in turn. -/
def addAll (u : UserId) (ks : List Key) (l : List (Key × List UserId)) :
    List (Key × List UserId) :=
  ks.foldl (fun acc k => addUser k u acc) l

/-- The keys `update` reacts with for page `p`: the declared reactions, then
the back emoji when it is truthy. -/
def resetKeys (p : Page) : List Key :=
  p.reactions.getD [] ++ (p.backEmoji.filter (fun b => decide (b ≠ ""))).toList

/-- A controller on a page with reaction `B` and back emoji `C`, shown on a
message that carries a reaction `X` of the user. -/
def ctlBC : Controller :=
  { botMessage := { botId := "bot", edited := none, reactions := [("X", ["u1"])], log := [] },
    pages := [("A", Page.mk none "bc" (some ["B"]) (some "C") false none none)],
    lastPage := Slot.null,
    currentPage := Slot.page (Page.mk none "bc" (some ["B"]) (some "C") false none none) }

/-- A top-level page without children, reactions or back emoji. -/
def pageA : Page := Page.mk none "a" none none false none none

/-- A second top-level page. -/
def pageB : Page := Page.mk none "b" none none false none none

/-- The page tree `{ A: {}, B: {} }`. -/
def treeAB : List (Key × Page) := [("A", pageA), ("B", pageB)]

/-- The sample menu on `treeAB` after the user pressed `A`. -/
def abOpened : Controller :=
  (onCollect noCallbacks userU (userReacted (menu msg0 treeAB) "A" "u1") (std "A")).state

/-- The page `{ reactions: [K2], backEmoji: K2 }`. -/
def pageChild (content : String) (K2 : Key) : Page :=
  Page.mk none content (some [K2]) (some K2) false none none

/-- The menu over `{ K1: { reactions: [K2], backEmoji: K2 } }` once the user
has added the reaction `K1`. -/
def childMenu (user : User) (m : Message) (content : String) (K1 K2 : Key) : Controller :=
  userReacted (menu m [(K1, pageChild content K2)]) K1 user.id

/-- The scenario after the handler has run for the first reaction `r1`, and
the user has added the second reaction. -/
def childOpened (onReact : Nat → Controller → MessageReaction → Outcome) (user : User)
    (m : Message) (content : String) (K1 K2 : Key) (r1 : MessageReaction) : Controller :=
  userReacted (onCollect onReact user (childMenu user m content K1 K2) r1).state K2 user.id

/-- Options of a prompt whose "yes" key is the id of a custom emoji. -/
def customYesOptions : AsyncCollectorOptions :=
  { reactions := ["700000000000000001", "❌"], user := userU,
    deleteReaction := false, deleteAllOnEnd := false }

/-- A reaction with the custom emoji named `yes` whose id is the "yes" key. -/
def customYesReaction : MessageReaction :=
  { emoji := { id := some "700000000000000001", name := "yes" } }

/-! ## Navigation: `goTo`, `back`, `canBack` -/

section Navigation

open Controller

theorem update_currentPage (c : Controller) (b : Bool) :
    (c.update b).state.currentPage = c.currentPage := by
  unfold Controller.update
  split
  · rfl
  · dsimp only
    split <;> rfl

theorem update_lastPage (c : Controller) (b : Bool) :
    (c.update b).state.lastPage = c.lastPage := by
  unfold Controller.update
  split
  · rfl
  · dsimp only
    split <;> rfl

theorem update_pages (c : Controller) (b : Bool) :
    (c.update b).state.pages = c.pages := by
  unfold Controller.update
  split
  · rfl
  · dsimp only
    split <;> rfl

theorem goTo_of_find (c : Controller) (pageId : String) (page : Page)
    (h : (findRecursivelyId c.pages).find? (fun q => q.id == some pageId) = some page) :
    c.goTo pageId =
      { state := ((c.setCurrentPage (Slot.page page)).update false).state, thrown := none } := by
  unfold Controller.goTo
  rw [h]

theorem goTo_slots (c : Controller) (pageId : String) (page : Page)
    (h : (findRecursivelyId c.pages).find? (fun q => q.id == some pageId) = some page) :
    (c.goTo pageId).thrown = none ∧
    (c.goTo pageId).state.currentPage = Slot.page page ∧
    (c.goTo pageId).state.lastPage = c.currentPage.or (Slot.page page) ∧
    (c.goTo pageId).state.pages = c.pages := by
  rw [goTo_of_find c pageId page h]
  refine ⟨rfl, ?_, ?_, ?_⟩
  · rw [update_currentPage]; rfl
  · rw [update_lastPage]; rfl
  · rw [update_pages]; rfl

theorem back_slots (c : Controller) (h : c.canBack = true) :
    c.back.thrown = none ∧
    c.back.state.currentPage = c.lastPage ∧
    c.back.state.lastPage = c.currentPage ∧
    c.back.state.pages = c.pages := by
  unfold Controller.back
  rw [if_pos h]
  refine ⟨rfl, ?_, ?_, ?_⟩
  · dsimp only; rw [update_currentPage]; rfl
  · dsimp only; rw [update_lastPage]; rfl
  · dsimp only; rw [update_pages]; rfl

theorem back_of_not_canBack (c : Controller) (h : ¬ c.canBack = true) :
    c.back = { state := c, thrown := some Thrown.invalidBack } := by
  unfold Controller.back
  rw [if_neg h]

theorem find_exists_of_node (pages : List (Key × Page)) (pageId : String) (p : Page)
    (hp : p ∈ nodesMap pages) (hid : p.id = some pageId) :
    ∃ page, (findRecursivelyId pages).find? (fun q => q.id == some pageId) = some page := by
  have hmem : p ∈ findRecursivelyId pages := by
    unfold findRecursivelyId
    rw [List.mem_filter]
    exact ⟨hp, by rw [hid]; rfl⟩
  cases hf : (findRecursivelyId pages).find? (fun q => q.id == some pageId) with
  | some page => exact ⟨page, rfl⟩
  | none =>
    rw [List.find?_eq_none] at hf
    have := hf p hmem
    rw [hid] at this
    simp at this

theorem find_none_of_no_node (pages : List (Key × Page)) (pageId : String)
    (h : ∀ p ∈ nodesMap pages, p.id ≠ some pageId) :
    (findRecursivelyId pages).find? (fun q => q.id == some pageId) = none := by
  rw [List.find?_eq_none]
  intro q hq
  unfold findRecursivelyId at hq
  rw [List.mem_filter] at hq
  have := h q hq.1
  simpa using this

theorem goTo_of_find_none (c : Controller) (pageId : String)
    (h : (findRecursivelyId c.pages).find? (fun q => q.id == some pageId) = none) :
    c.goTo pageId = { state := c, thrown := some (Thrown.invalidGoTo pageId) } := by
  unfold Controller.goTo
  rw [h]

theorem notNull_or_page (a : Slot) (q : Page) : (a.or (Slot.page q)).notNull = true := by
  cases a <;> rfl

theorem lookupPage_cases (m : List (Key × Page)) (k : Key) :
    lookupPage m k = Slot.undefined ∨ ∃ q, lookupPage m k = Slot.page q := by
  unfold lookupPage
  cases m.lookup k with
  | none => exact Or.inl rfl
  | some q => exact Or.inr ⟨q, rfl⟩

theorem nextPage_cases (c : Controller) (k : Key) :
    nextPage c k = Slot.undefined ∨ ∃ q, nextPage c k = Slot.page q := by
  unfold nextPage
  split
  · split <;> exact lookupPage_cases _ _
  · exact lookupPage_cases _ _

theorem nextPage_undefined (c : Controller) (k : Key) (h : (nextPage c k).truthy = false) :
    nextPage c k = Slot.undefined := by
  rcases nextPage_cases c k with h1 | ⟨q, h1⟩
  · exact h1
  · rw [h1] at h; cases h

theorem onCollect_back (onReact : Nat → Controller → MessageReaction → Outcome) (user : User)
    (c : Controller) (reaction : MessageReaction)
    (hb : backBranch c (emojiKey reaction.emoji) = true) :
    onCollect onReact user c reaction = c.back := by
  unfold onCollect
  dsimp only
  rw [if_pos hb]

theorem onCollect_unresolved (onReact : Nat → Controller → MessageReaction → Outcome)
    (user : User) (c : Controller) (reaction : MessageReaction)
    (hb : backBranch c (emojiKey reaction.emoji) = false)
    (hn : nextPage c (emojiKey reaction.emoji) = Slot.undefined) :
    onCollect onReact user c reaction =
      ({ c.setCurrentPage Slot.undefined with
          botMessage := c.botMessage.removeUser (emojiKey reaction.emoji) user.id }).update
        true := by
  unfold onCollect
  dsimp only
  rw [if_neg (by rw [hb]; exact Bool.false_ne_true), hn]
  rfl

theorem onCollect_resolved (onReact : Nat → Controller → MessageReaction → Outcome)
    (user : User) (c : Controller) (reaction : MessageReaction) (q : Page)
    (hb : backBranch c (emojiKey reaction.emoji) = false)
    (hn : nextPage c (emojiKey reaction.emoji) = Slot.page q) :
    onCollect onReact user c reaction =
      match (reactStage onReact c reaction q).thrown with
      | some e => { state := (reactStage onReact c reaction q).state, thrown := some e }
      | none =>
        match (reactStage onReact c reaction q).state.currentPage with
        | Slot.page q1 =>
          (syncReactions user reaction (reactStage onReact c reaction q).state q1).update true
        | _ => { state := (reactStage onReact c reaction q).state,
                 thrown := some Thrown.typeError } := by
  unfold onCollect reactStage
  dsimp only
  rw [if_neg (by rw [hb]; exact Bool.false_ne_true), hn]
  have hcur : (c.setCurrentPage (Slot.page q)).currentPage = Slot.page q := rfl
  simp only [hcur]

theorem syncReactions_slots (user : User) (reaction : MessageReaction) (c : Controller)
    (q : Page) :
    (syncReactions user reaction c q).currentPage = c.currentPage ∧
    (syncReactions user reaction c q).lastPage = c.lastPage ∧
    (syncReactions user reaction c q).pages = c.pages := by
  unfold syncReactions
  split
  · exact ⟨rfl, rfl, rfl⟩
  · split <;> exact ⟨rfl, rfl, rfl⟩

end Navigation

/-! ## Single-slot history -/

/-- C1, as stated, fails: the first `goTo` on a freshly constructed
controller (where `currentPage` is `null`) leaves `lastPage` equal to the
page found, not to `null`, the value `currentPage` held before the call. -/
theorem goTo_fresh_lastPage_is_target :
    ((Controller.new msg0 tree3).goTo "p0").thrown = none ∧
    (Controller.new msg0 tree3).currentPage = Slot.null ∧
    ((Controller.new msg0 tree3).goTo "p0").state.currentPage = Slot.page pageP0 ∧
    ((Controller.new msg0 tree3).goTo "p0").state.lastPage = Slot.page pageP0 ∧
    ((Controller.new msg0 tree3).goTo "p0").state.lastPage ≠
      (Controller.new msg0 tree3).currentPage := by
  refine ⟨rfl, rfl, rfl, rfl, ?_⟩
  show Slot.page pageP0 ≠ Slot.null
  intro h
  cases h

/-- C1 (amended): whenever some node of the tree carries `pageId`, `goTo pageId`
does not throw, `currentPage` becomes the page found (a node of the tree with
that id) and `lastPage` becomes `currentPage || page`: the value `currentPage`
held before the call when that was a page, the page found when it was `null`
or `undefined`.  From construction, `goTo` of three ids leaves `lastPage` at
the first page, the first page and the second page in turn. -/
theorem goTo_single_slot_history (c : Controller) :
    (∀ (pageId : String) (p : Page), p ∈ nodesMap c.pages → p.id = some pageId →
      ∃ page, (findRecursivelyId c.pages).find? (fun q => q.id == some pageId) = some page ∧
        page ∈ nodesMap c.pages ∧ page.id = some pageId ∧
        (c.goTo pageId).thrown = none ∧
        (c.goTo pageId).state.currentPage = Slot.page page ∧
        (∀ q, c.currentPage = Slot.page q → (c.goTo pageId).state.lastPage = Slot.page q) ∧
        (c.currentPage.truthy = false → (c.goTo pageId).state.lastPage = Slot.page page)) ∧
    (∀ (m : Message) (i0 i1 i2 : String) (p0 p1 p2 : Page),
      (findRecursivelyId c.pages).find? (fun q => q.id == some i0) = some p0 →
      (findRecursivelyId c.pages).find? (fun q => q.id == some i1) = some p1 →
      (findRecursivelyId c.pages).find? (fun q => q.id == some i2) = some p2 →
      ((Controller.new m c.pages).goTo i0).state.lastPage = Slot.page p0 ∧
      (((Controller.new m c.pages).goTo i0).state.goTo i1).state.lastPage = Slot.page p0 ∧
      ((((Controller.new m c.pages).goTo i0).state.goTo i1).state.goTo i2).state.lastPage
        = Slot.page p1 ∧
      ((((Controller.new m c.pages).goTo i0).state.goTo i1).state.goTo i2).state.currentPage
        = Slot.page p2) := by
  constructor
  · intro pageId p hp hid
    obtain ⟨page, hfind⟩ := find_exists_of_node c.pages pageId p hp hid
    have hsome := List.find?_some hfind
    have hmem := List.mem_of_find?_eq_some hfind
    obtain ⟨_, hcur, hlast, _⟩ := goTo_slots c pageId page hfind
    refine ⟨page, hfind, ?_, ?_, (goTo_slots c pageId page hfind).1, hcur, ?_, ?_⟩
    · unfold findRecursivelyId at hmem
      exact (List.mem_filter.mp hmem).1
    · simpa using hsome
    · intro q hq
      rw [hlast, hq]; rfl
    · intro hq
      rw [hlast]
      cases hc : c.currentPage with
      | page q => rw [hc] at hq; cases hq
      | null => rfl
      | undefined => rfl
  · intro m i0 i1 i2 p0 p1 p2 h0 h1 h2
    have e0 := goTo_slots (Controller.new m c.pages) i0 p0 h0
    have h1a : (findRecursivelyId ((Controller.new m c.pages).goTo i0).state.pages).find?
        (fun q => q.id == some i1) = some p1 := by rw [e0.2.2.2]; exact h1
    have e1 := goTo_slots _ i1 p1 h1a
    have h2a : (findRecursivelyId
        (((Controller.new m c.pages).goTo i0).state.goTo i1).state.pages).find?
        (fun q => q.id == some i2) = some p2 := by rw [e1.2.2.2, e0.2.2.2]; exact h2
    have e2 := goTo_slots _ i2 p2 h2a
    refine ⟨?_, ?_, ?_, e2.2.1⟩
    · rw [e0.2.2.1]; rfl
    · rw [e1.2.2.1, e0.2.1]; rfl
    · rw [e2.2.2.1, e1.2.1]; rfl

/-- C1 (amended), at the tree with pages `p0`, `p1`, `p2`. -/
theorem goTo_single_slot_history_witness :
    pageP1 ∈ nodesMap (Controller.new msg0 tree3).pages ∧ pageP1.id = some "p1" ∧
    ((Controller.new msg0 tree3).goTo "p0").state.lastPage = Slot.page pageP0 ∧
    (((Controller.new msg0 tree3).goTo "p0").state.goTo "p1").state.lastPage
      = Slot.page pageP0 ∧
    ((((Controller.new msg0 tree3).goTo "p0").state.goTo "p1").state.goTo "p2").state.lastPage
      = Slot.page pageP1 :=
  have hp : pageP1 ∈ nodesMap (Controller.new msg0 tree3).pages := by
    simp [Controller.new, tree3, nodesMap, Page.nodes, nodesOpt, pageP0, pageP1, pageP2]
  have h := (goTo_single_slot_history (Controller.new msg0 tree3)).2
    msg0 "p0" "p1" "p2" pageP0 pageP1 pageP2 rfl rfl rfl
  ⟨hp, rfl, h.1, h.2.1, h.2.2.1⟩

/-! ## `back` swaps the two slots -/

/-- C2, as stated, fails: in the menu over `{ A: { reactions: [B] } }` the
user presses `A` and then `B` (both accepted by the filter; `B` resolves to
no page), which leaves `currentPage` `undefined` and `lastPage` on the page
of `A`, so `lastPage` is non-null.  The first `back()` swaps the slots; the
second `back()` throws and the slots stay swapped: two consecutive `back()`
calls do not restore the original state. -/
theorem two_backs_do_not_restore :
    filter (allReactions treeLeaf) userU (std "A") userU = true ∧
    filter (allReactions treeLeaf) userU (std "B") userU = true ∧
    leafThenB.currentPage = Slot.undefined ∧
    leafThenB.lastPage = Slot.page pageLeaf ∧
    leafThenB.canBack = true ∧
    leafThenB.back.thrown = none ∧
    leafThenB.back.state.currentPage = Slot.page pageLeaf ∧
    leafThenB.back.state.lastPage = Slot.undefined ∧
    leafThenB.back.state.back.thrown = some Thrown.invalidBack ∧
    leafThenB.back.state.back.state.currentPage = Slot.page pageLeaf ∧
    leafThenB.back.state.back.state.lastPage = Slot.undefined ∧
    leafThenB.back.state.back.state.currentPage ≠ leafThenB.currentPage ∧
    leafThenB.back.state.back.state.lastPage ≠ leafThenB.lastPage := by
  refine ⟨by decide, by decide, rfl, rfl, rfl, rfl, rfl, rfl, rfl, rfl, rfl, ?_, ?_⟩
  · show Slot.page pageLeaf ≠ Slot.undefined
    intro h
    cases h
  · show Slot.undefined ≠ Slot.page pageLeaf
    intro h
    cases h

/-- C2 (amended): in every state where `lastPage` is neither `null` nor
`undefined`, `back()` does not throw, `currentPage` becomes the old
`lastPage` and `lastPage` becomes the old `currentPage`.  When a page was
also current before the first call, a second consecutive `back()` does not
throw and both slots are back at their original values; when no page was
current (`currentPage` `null` or `undefined`), the second `back()` throws the
navigation error and leaves the slots swapped.  After `goTo` of three pages,
`back()` leaves `currentPage` at the second page and `lastPage` at the third,
and a further `back()` succeeds and restores the third page as current and
the second as last. -/
theorem back_swaps_slots (c : Controller) :
    (c.canBack = true →
      (c.back.thrown = none ∧
        c.back.state.currentPage = c.lastPage ∧
        c.back.state.lastPage = c.currentPage) ∧
      (c.back.state.back.thrown = none →
        c.back.state.back.state.currentPage = c.currentPage ∧
        c.back.state.back.state.lastPage = c.lastPage) ∧
      (c.currentPage.notNull = true →
        c.back.state.back.thrown = none ∧
        c.back.state.back.state.currentPage = c.currentPage ∧
        c.back.state.back.state.lastPage = c.lastPage) ∧
      (c.currentPage.notNull = false →
        c.back.state.back.thrown = some Thrown.invalidBack ∧
        c.back.state.back.state = c.back.state ∧
        c.back.state.back.state.currentPage = c.lastPage ∧
        c.back.state.back.state.lastPage = c.currentPage)) ∧
    (∀ (m : Message) (i0 i1 i2 : String) (p0 p1 p2 : Page),
      (findRecursivelyId c.pages).find? (fun q => q.id == some i0) = some p0 →
      (findRecursivelyId c.pages).find? (fun q => q.id == some i1) = some p1 →
      (findRecursivelyId c.pages).find? (fun q => q.id == some i2) = some p2 →
      ((((Controller.new m c.pages).goTo i0).state.goTo i1).state.goTo i2).state.back.thrown
        = none ∧
      ((((Controller.new m c.pages).goTo i0).state.goTo i1).state.goTo i2).state.back.state.currentPage
        = Slot.page p1 ∧
      ((((Controller.new m c.pages).goTo i0).state.goTo i1).state.goTo i2).state.back.state.lastPage
        = Slot.page p2 ∧
      ((((Controller.new m c.pages).goTo i0).state.goTo i1).state.goTo i2).state.back.state.back.thrown
        = none ∧
      ((((Controller.new m c.pages).goTo i0).state.goTo i1).state.goTo i2).state.back.state.back.state.currentPage
        = Slot.page p2 ∧
      ((((Controller.new m c.pages).goTo i0).state.goTo i1).state.goTo i2).state.back.state.back.state.lastPage
        = Slot.page p1) := by
  refine ⟨fun h => ?_, ?_⟩
  have hb := back_slots c h
  refine ⟨⟨hb.1, hb.2.1, hb.2.2.1⟩, ?_, ?_, ?_⟩
  · intro h2
    have hcb : c.back.state.canBack = true := by
      by_contra hn
      rw [back_of_not_canBack _ hn] at h2
      cases h2
    have hb2 := back_slots c.back.state hcb
    exact ⟨by rw [hb2.2.1, hb.2.2.1], by rw [hb2.2.2.1, hb.2.1]⟩
  · intro hc
    have hcb : c.back.state.canBack = true := by
      unfold Controller.canBack
      rw [hb.2.2.1]; exact hc
    have hb2 := back_slots c.back.state hcb
    exact ⟨hb2.1, by rw [hb2.2.1, hb.2.2.1], by rw [hb2.2.2.1, hb.2.1]⟩
  · intro hc
    have hcb : ¬ c.back.state.canBack = true := by
      unfold Controller.canBack
      rw [hb.2.2.1, hc]
      exact Bool.false_ne_true
    rw [back_of_not_canBack _ hcb]
    exact ⟨rfl, rfl, hb.2.1, hb.2.2.1⟩
  · intro m i0 i1 i2 p0 p1 p2 h0 h1 h2
    have e0 := goTo_slots (Controller.new m c.pages) i0 p0 h0
    have h1a : (findRecursivelyId ((Controller.new m c.pages).goTo i0).state.pages).find?
        (fun q => q.id == some i1) = some p1 := by rw [e0.2.2.2]; exact h1
    have e1 := goTo_slots _ i1 p1 h1a
    have h2a : (findRecursivelyId
        (((Controller.new m c.pages).goTo i0).state.goTo i1).state.pages).find?
        (fun q => q.id == some i2) = some p2 := by rw [e1.2.2.2, e0.2.2.2]; exact h2
    have e2 := goTo_slots _ i2 p2 h2a
    have hl : ((((Controller.new m c.pages).goTo i0).state.goTo i1).state.goTo i2).state.lastPage
        = Slot.page p1 := by rw [e2.2.2.1, e1.2.1]; rfl
    have hc3 : ((((Controller.new m c.pages).goTo i0).state.goTo i1).state.goTo i2).state.canBack
        = true := by
      unfold Controller.canBack
      rw [hl]; rfl
    have b1 := back_slots _ hc3
    have hc4 : ((((Controller.new m c.pages).goTo i0).state.goTo i1).state.goTo
        i2).state.back.state.canBack = true := by
      unfold Controller.canBack
      rw [b1.2.2.1, e2.2.1]; rfl
    have b2 := back_slots _ hc4
    refine ⟨b1.1, ?_, ?_, b2.1, ?_, ?_⟩
    · rw [b1.2.1, hl]
    · rw [b1.2.2.1, e2.2.1]
    · rw [b2.2.1, b1.2.2.1, e2.2.1]
    · rw [b2.2.2.1, b1.2.1, hl]

/-- C2 (amended), at the state reached by `goTo` of `p0`, `p1`, `p2`:
`back()` makes `p1` current and `p2` last, and a second `back()` restores
`p2` as current and `p1` as last. -/
theorem back_swaps_slots_witness :
    afterThree.canBack = true ∧
    afterThree.currentPage.notNull = true ∧
    afterThree.currentPage = Slot.page pageP2 ∧
    afterThree.lastPage = Slot.page pageP1 ∧
    afterThree.back.state.currentPage = Slot.page pageP1 ∧
    afterThree.back.state.lastPage = Slot.page pageP2 ∧
    afterThree.back.state.back.thrown = none ∧
    afterThree.back.state.back.state.currentPage = Slot.page pageP2 ∧
    afterThree.back.state.back.state.lastPage = Slot.page pageP1 :=
  have h := (back_swaps_slots afterThree).1 rfl
  have h2 := h.2.2.1 rfl
  ⟨rfl, rfl, rfl, rfl, h.1.2.1.trans rfl, h.1.2.2.trans rfl, h2.1, h2.2.1.trans rfl,
    h2.2.2.trans rfl⟩

/-! ## Failed navigation -/

/-- C7: `goTo pageId` with an id carried by no node of the page tree throws
the navigation error of `goTo`, `back()` with `canBack` false throws the
navigation error of `back`, and in both cases the controller is exactly what
it was: `currentPage`, `lastPage`, the message and the log of transport calls
(no edit, no reaction added or removed). -/
theorem failed_navigation_is_atomic (c : Controller) :
    (∀ pageId : String, (∀ p ∈ nodesMap c.pages, p.id ≠ some pageId) →
      (c.goTo pageId).thrown = some (Thrown.invalidGoTo pageId) ∧
      (c.goTo pageId).state.currentPage = c.currentPage ∧
      (c.goTo pageId).state.lastPage = c.lastPage ∧
      (c.goTo pageId).state.botMessage.log = c.botMessage.log ∧
      (c.goTo pageId).state = c) ∧
    (c.canBack = false →
      c.back.thrown = some Thrown.invalidBack ∧
      c.back.state.currentPage = c.currentPage ∧
      c.back.state.lastPage = c.lastPage ∧
      c.back.state.botMessage.log = c.botMessage.log ∧
      c.back.state = c) := by
  constructor
  · intro pageId h
    rw [goTo_of_find_none c pageId (find_none_of_no_node c.pages pageId h)]
    exact ⟨rfl, rfl, rfl, rfl, rfl⟩
  · intro h
    rw [back_of_not_canBack c (by rw [h]; exact Bool.false_ne_true)]
    exact ⟨rfl, rfl, rfl, rfl, rfl⟩

/-- C7, at the tree with pages `p0`, `p1`, `p2`: `goTo` of the unknown id `zz`
after three transitions, and `back()` on the fresh controller. -/
theorem failed_navigation_is_atomic_witness :
    (∀ p ∈ nodesMap afterThree.pages, p.id ≠ some "zz") ∧
    (afterThree.goTo "zz").thrown = some (Thrown.invalidGoTo "zz") ∧
    (afterThree.goTo "zz").state.currentPage = Slot.page pageP2 ∧
    (afterThree.goTo "zz").state.lastPage = Slot.page pageP1 ∧
    (Controller.new msg0 tree3).canBack = false ∧
    (Controller.new msg0 tree3).back.thrown = some Thrown.invalidBack ∧
    (Controller.new msg0 tree3).back.state.botMessage.log = [] :=
  have hz : ∀ p ∈ nodesMap afterThree.pages, p.id ≠ some "zz" := by
    intro p hp
    have hp1 : p ∈ nodesMap tree3 := hp
    simp only [tree3, nodesMap, Page.nodes, nodesOpt, pageP0, pageP1, pageP2,
      List.mem_cons, List.append_nil, List.cons_append, List.nil_append,
      List.mem_singleton, List.not_mem_nil, or_false] at hp1
    rcases hp1 with h | h | h <;> subst h <;> decide
  have h1 := (failed_navigation_is_atomic afterThree).1 "zz" hz
  have h2 := (failed_navigation_is_atomic (Controller.new msg0 tree3)).2 rfl
  ⟨hz, h1.1, h1.2.1.trans rfl, h1.2.2.1.trans rfl, rfl, h2.1, h2.2.2.2.1.trans rfl⟩

/-! ## `canBack` -/

theorem reactStage_canBack (onReact : Nat → Controller → MessageReaction → Outcome)
    (c : Controller) (reaction : MessageReaction) (q : Page)
    (hcb : ∀ n st r, st.canBack = true → (onReact n st r).state.canBack = true) :
    (reactStage onReact c reaction q).state.canBack = true := by
  have h1 : (c.setCurrentPage (Slot.page q)).canBack = true := notNull_or_page _ _
  unfold reactStage
  cases q.onReact with
  | none => exact h1
  | some n => exact hcb n _ reaction h1

theorem backBranch_true (c : Controller) (k : Key) (h : backBranch c k = true) :
    c.canBack = true ∧ ∃ p, c.currentPage = Slot.page p ∧ p.backEmoji = some k := by
  unfold backBranch at h
  split at h
  · rename_i p hp
    rw [Bool.and_eq_true] at h
    exact ⟨h.2, p, hp, of_decide_eq_true h.1⟩
  · cases h

/-- C4, as stated, fails: in the menu over `{ A: { reactions: [B] } }` the
user presses `A` (the page opens) and then `B`, which the filter accepts and
which resolves to no page; the following `back()` does not throw, and
`canBack` is false right after it. -/
theorem canBack_false_after_successful_back :
    filter (allReactions treeLeaf) userU (std "A") userU = true ∧
    filter (allReactions treeLeaf) userU (std "B") userU = true ∧
    leafOpened.currentPage = Slot.page pageLeaf ∧
    leafThenB.currentPage = Slot.undefined ∧
    leafThenB.lastPage = Slot.page pageLeaf ∧
    leafThenB.back.thrown = none ∧
    leafThenB.back.state.currentPage = Slot.page pageLeaf ∧
    leafThenB.back.state.lastPage = Slot.undefined ∧
    leafThenB.back.state.canBack = false := by
  refine ⟨?_, ?_, rfl, rfl, rfl, rfl, rfl, rfl, rfl⟩
  · decide
  · decide

/-- C4 (amended): `canBack` is false for a freshly constructed controller.  It
is true right after a `goTo` that finds its page, and after a collected
reaction that takes the back branch or resolves to a page (with `onReact`
functions that never clear `lastPage`).  After a `back()` that does not throw
it is true exactly when a page was current before the call: `back()` from a
state without current page leaves `canBack` false.  `canBack` is true exactly
when `lastPage` is neither `null` nor `undefined`. -/
theorem canBack_after_transitions (c : Controller) :
    (∀ (m : Message) (pages : List (Key × Page)), (Controller.new m pages).canBack = false) ∧
    (∀ pageId : String, (c.goTo pageId).thrown = none →
      (c.goTo pageId).state.canBack = true) ∧
    (c.back.thrown = none → c.back.state.canBack = c.currentPage.notNull) ∧
    (∀ (onReact : Nat → Controller → MessageReaction → Outcome) (user : User)
      (reaction : MessageReaction),
      (∀ n st r, st.canBack = true → (onReact n st r).state.canBack = true) →
      (backBranch c (emojiKey reaction.emoji) = true ∨
        ∃ q, nextPage c (emojiKey reaction.emoji) = Slot.page q) →
      (onCollect onReact user c reaction).state.canBack = true) ∧
    (c.canBack = true ↔ c.lastPage ≠ Slot.null ∧ c.lastPage ≠ Slot.undefined) := by
  refine ⟨fun _ _ => rfl, ?_, ?_, ?_, ?_⟩
  · intro pageId h
    cases hf : (findRecursivelyId c.pages).find? (fun q => q.id == some pageId) with
    | none =>
      rw [goTo_of_find_none c pageId hf] at h
      cases h
    | some page =>
      unfold Controller.canBack
      rw [(goTo_slots c pageId page hf).2.2.1]
      exact notNull_or_page _ _
  · intro h
    by_cases hc : c.canBack = true
    · unfold Controller.canBack
      rw [(back_slots c hc).2.2.1]
    · rw [back_of_not_canBack c hc] at h
      cases h
  · intro onReact user reaction hcb hres
    by_cases hb : backBranch c (emojiKey reaction.emoji) = true
    · rw [onCollect_back onReact user c reaction hb]
      obtain ⟨hc, p, hp, _⟩ := backBranch_true c _ hb
      unfold Controller.canBack
      rw [(back_slots c hc).2.2.1, hp]
      rfl
    · have hb1 : backBranch c (emojiKey reaction.emoji) = false := by
        simpa using hb
      rcases hres with h | ⟨q, hq⟩
      · exact absurd h hb
      · rw [onCollect_resolved onReact user c reaction q hb1 hq]
        have hst := reactStage_canBack onReact c reaction q hcb
        cases (reactStage onReact c reaction q).thrown with
        | some e => exact hst
        | none =>
          dsimp only
          cases hcur : (reactStage onReact c reaction q).state.currentPage with
          | page q1 =>
            dsimp only
            unfold Controller.canBack
            rw [update_lastPage, (syncReactions_slots user reaction _ q1).2.1]
            exact hst
          | null => exact hst
          | undefined => exact hst
  · unfold Controller.canBack
    cases c.lastPage <;> simp [Slot.notNull]

/-- C4 (amended), at the sample sessions: `goTo` of `p0` on the fresh
controller, and the press of `A` in the menu over `{ A: { reactions: [B] } }`. -/
theorem canBack_after_transitions_witness :
    ((Controller.new msg0 tree3).goTo "p0").thrown = none ∧
    ((Controller.new msg0 tree3).goTo "p0").state.canBack = true ∧
    nextPage (userReacted (menu msg0 treeLeaf) "A" "u1") (emojiKey (std "A").emoji)
      = Slot.page pageLeaf ∧
    leafOpened.canBack = true :=
  ⟨rfl, (canBack_after_transitions (Controller.new msg0 tree3)).2.1 "p0" rfl, rfl,
    (canBack_after_transitions (userReacted (menu msg0 treeLeaf) "A" "u1")).2.2.2.1
      noCallbacks userU (std "A") (fun _ _ _ h => h) (Or.inr ⟨pageLeaf, rfl⟩)⟩

/-! ## Reactions on the message -/

theorem addUser_keys (k : Key) (u : UserId) (l : List (Key × List UserId)) :
    (addUser k u l).map Prod.fst =
      if k ∈ l.map Prod.fst then l.map Prod.fst else l.map Prod.fst ++ [k] := by
  induction l with
  | nil => simp [addUser]
  | cons e rest ih =>
    obtain ⟨k1, us⟩ := e
    unfold addUser
    by_cases h : k1 = k
    · subst h
      simp
    · rw [if_neg h]
      have hne : ¬ k = k1 := fun h1 => h h1.symm
      simp only [List.map_cons, List.mem_cons, hne, false_or, ih]
      split <;> simp

theorem addUser_fresh (k : Key) (u : UserId) (l : List (Key × List UserId))
    (h : k ∉ l.map Prod.fst) : addUser k u l = l ++ [(k, [u])] := by
  induction l with
  | nil => rfl
  | cons e rest ih =>
    obtain ⟨k1, us⟩ := e
    simp only [List.map_cons, List.mem_cons, not_or] at h
    unfold addUser
    rw [if_neg (fun h1 => h.1 h1.symm), ih h.2]
    rfl

theorem addUser_users (k : Key) (u : UserId) (l : List (Key × List UserId))
    (h : ∀ e ∈ l, e.2 = [u]) : ∀ e ∈ addUser k u l, e.2 = [u] := by
  induction l with
  | nil =>
    intro e he
    simp only [addUser, List.mem_singleton] at he
    rw [he]
  | cons e0 rest ih =>
    obtain ⟨k1, us⟩ := e0
    have hus : us = [u] := h (k1, us) (List.mem_cons_self _ _)
    have hrest : ∀ e ∈ rest, e.2 = [u] := fun e he => h e (List.mem_cons_of_mem _ he)
    intro e he
    unfold addUser at he
    by_cases hk : k1 = k
    · rw [if_pos hk] at he
      rcases List.mem_cons.mp he with h1 | h1
      · rw [h1, hus]; simp
      · exact hrest e h1
    · rw [if_neg hk] at he
      rcases List.mem_cons.mp he with h1 | h1
      · rw [h1]; exact hus
      · exact ih hrest e h1

theorem addAll_mem_keys (u : UserId) (ks : List Key) (l : List (Key × List UserId))
    (k : Key) : k ∈ (addAll u ks l).map Prod.fst ↔ k ∈ l.map Prod.fst ∨ k ∈ ks := by
  induction ks generalizing l with
  | nil => simp [addAll]
  | cons k0 rest ih =>
    have hstep : addAll u (k0 :: rest) l = addAll u rest (addUser k0 u l) := rfl
    rw [hstep, ih, addUser_keys]
    by_cases hm : k0 ∈ l.map Prod.fst
    · rw [if_pos hm]
      constructor
      · rintro (h | h)
        · exact Or.inl h
        · exact Or.inr (List.mem_cons_of_mem _ h)
      · rintro (h | h)
        · exact Or.inl h
        · rcases List.mem_cons.mp h with h1 | h1
          · rw [h1]; exact Or.inl hm
          · exact Or.inr h1
    · rw [if_neg hm]
      simp only [List.mem_append, List.mem_singleton, List.mem_cons]
      tauto

theorem addAll_nodup_keys (u : UserId) (ks : List Key) (l : List (Key × List UserId))
    (h : (l.map Prod.fst).Nodup) : ((addAll u ks l).map Prod.fst).Nodup := by
  induction ks generalizing l with
  | nil => exact h
  | cons k0 rest ih =>
    have hstep : addAll u (k0 :: rest) l = addAll u rest (addUser k0 u l) := rfl
    rw [hstep]
    apply ih
    rw [addUser_keys]
    by_cases hm : k0 ∈ l.map Prod.fst
    · rw [if_pos hm]; exact h
    · rw [if_neg hm]
      rw [List.nodup_append]
      refine ⟨h, List.nodup_singleton _, ?_⟩
      intro a ha hb
      rw [List.mem_singleton] at hb
      rw [hb] at ha
      exact hm ha

theorem addAll_users (u : UserId) (ks : List Key) (l : List (Key × List UserId))
    (h : ∀ e ∈ l, e.2 = [u]) : ∀ e ∈ addAll u ks l, e.2 = [u] := by
  induction ks generalizing l with
  | nil => exact h
  | cons k0 rest ih =>
    have hstep : addAll u (k0 :: rest) l = addAll u rest (addUser k0 u l) := rfl
    rw [hstep]
    exact ih _ (addUser_users k0 u l h)

theorem addAll_fresh (u : UserId) (ks : List Key) (l : List (Key × List UserId))
    (h : (l.map Prod.fst ++ ks).Nodup) :
    addAll u ks l = l ++ ks.map (fun k => (k, [u])) := by
  induction ks generalizing l with
  | nil => simp [addAll]
  | cons k0 rest ih =>
    have hstep : addAll u (k0 :: rest) l = addAll u rest (addUser k0 u l) := rfl
    have hk0 : k0 ∉ l.map Prod.fst := by
      intro hm
      rw [List.nodup_append] at h
      exact h.2.2 hm (List.mem_cons_self _ _)
    rw [hstep, addUser_fresh k0 u l hk0, ih]
    · simp
    · simpa using h

theorem foldl_react (rs : List Key) (m : Message) :
    rs.foldl Message.react m =
      { m with reactions := addAll m.botId rs m.reactions,
               log := m.log ++ rs.map Call.react } := by
  induction rs generalizing m with
  | nil => simp [addAll]
  | cons k rest ih =>
    rw [List.foldl_cons, ih]
    simp [Message.react, addAll]

theorem reactBackEmoji_eq (m : Message) (p : Page) :
    Controller.reactBackEmoji m p =
      ((p.backEmoji.filter (fun b => decide (b ≠ ""))).toList).foldl Message.react m := by
  unfold Controller.reactBackEmoji
  cases p.backEmoji with
  | none => rfl
  | some b =>
    by_cases hb : b = ""
    · simp [hb, Option.filter]
    · simp [hb, Option.filter]

theorem update_false_message (c : Controller) (p : Page) (hp : c.currentPage = Slot.page p) :
    (c.update false).thrown = none ∧
    (c.update false).state.botMessage =
      (resetKeys p).foldl Message.react ((c.botMessage.removeAll).edit c.currentPage) := by
  unfold Controller.update
  rw [if_neg Bool.false_ne_true]
  dsimp only
  rw [hp]
  dsimp only
  refine ⟨rfl, ?_⟩
  rw [reactBackEmoji_eq]
  unfold resetKeys
  rw [List.foldl_append]
  cases p.reactions <;> rfl

theorem update_false_reactions (c : Controller) (p : Page) (hp : c.currentPage = Slot.page p) :
    (c.update false).state.botMessage.reactions = addAll c.botMessage.botId (resetKeys p) [] ∧
    (c.update false).state.botMessage.botId = c.botMessage.botId ∧
    (c.update false).state.botMessage.edited = some (Slot.page p) ∧
    (c.update false).state.botMessage.log =
      c.botMessage.log ++ [Call.removeAll, Call.edit (Slot.page p)] ++
        (resetKeys p).map Call.react := by
  rw [(update_false_message c p hp).2, foldl_react, hp]
  simp [Message.removeAll, Message.edit]

/-! ## Full reaction reset by `update` -/

/-- C5: with a page `p` current, `update(false)` resolves and leaves on the
message exactly the keys `p.reactions` followed by `p.backEmoji` (when that
is a non-empty string): the same keys as a set, each held by the bot alone,
no key twice, in declared order when the declaration repeats no key, none
when the page declares neither, and the same whatever reactions the message
carried before.  `update(true)` leaves the reactions as they were and issues
the single call `edit(currentPage)`. -/
theorem update_resets_reactions (c : Controller) (p : Page)
    (hp : c.currentPage = Slot.page p) :
    ((c.update false).thrown = none ∧
      (∀ k, k ∈ (c.update false).state.botMessage.keys ↔
        (k ∈ p.reactions.getD [] ∨ (p.backEmoji = some k ∧ k ≠ ""))) ∧
      (c.update false).state.botMessage.keys.Nodup ∧
      (∀ e ∈ (c.update false).state.botMessage.reactions, e.2 = [c.botMessage.botId]) ∧
      ((resetKeys p).Nodup → (c.update false).state.botMessage.keys = resetKeys p) ∧
      (p.reactions = none → p.backEmoji = none →
        (c.update false).state.botMessage.reactions = []) ∧
      (∀ c2 : Controller, c2.currentPage = Slot.page p →
        c2.botMessage.botId = c.botMessage.botId →
        (c2.update false).state.botMessage.reactions
          = (c.update false).state.botMessage.reactions)) ∧
    ((c.update true).thrown = none ∧
      (c.update true).state.botMessage.reactions = c.botMessage.reactions ∧
      (c.update true).state.botMessage.edited = some c.currentPage ∧
      (c.update true).state.botMessage.log = c.botMessage.log ++ [Call.edit c.currentPage]) := by
  have hr := (update_false_reactions c p hp).1
  refine ⟨⟨(update_false_message c p hp).1, ?_, ?_, ?_, ?_, ?_, ?_⟩, rfl, rfl, rfl, rfl⟩
  · intro k
    unfold Message.keys
    rw [hr, addAll_mem_keys]
    unfold resetKeys
    cases hbe : p.backEmoji with
    | none => simp [Option.filter]
    | some b =>
      by_cases hb : b = ""
      · subst hb
        simp [Option.filter]
        intro h1 h2
        exact absurd h1.symm h2
      · simp [Option.filter, hb]
        constructor
        · rintro (h | h)
          · exact Or.inl h
          · exact Or.inr ⟨h.symm, by rw [h]; exact hb⟩
        · rintro (h | h)
          · exact Or.inl h
          · exact Or.inr h.1.symm
  · unfold Message.keys
    rw [hr]
    exact addAll_nodup_keys _ _ _ List.nodup_nil
  · rw [hr]
    exact addAll_users _ _ _ (fun e he => absurd he (List.not_mem_nil e))
  · intro hnd
    unfold Message.keys
    rw [hr, addAll_fresh _ _ _ (by simpa using hnd)]
    simp [Function.comp_def]
  · intro h1 h2
    rw [hr]
    unfold resetKeys
    rw [h1, h2]
    rfl
  · intro c2 hp2 hb2
    rw [hr, (update_false_reactions c2 p hp2).1, hb2]

/-- C5, on a page with reaction `B` and back emoji `C` while the message
carries `X`: after `update(false)` the keys are `B`, `C`. -/
theorem update_resets_reactions_witness :
    ctlBC.currentPage = Slot.page (Page.mk none "bc" (some ["B"]) (some "C") false none none) ∧
    ctlBC.botMessage.keys = ["X"] ∧
    (ctlBC.update false).state.botMessage.keys = ["B", "C"] ∧
    (ctlBC.update true).state.botMessage.keys = ["X"] :=
  have h := update_resets_reactions ctlBC
    (Page.mk none "bc" (some ["B"]) (some "C") false none none) rfl
  ⟨rfl, rfl, (h.1.2.2.2.2.1 (by decide)).trans rfl, congrArg (List.map Prod.fst) h.2.2.1⟩

/-! ## Reactions after a resolved menu transition -/

theorem reactStage_ok (onReact : Nat → Controller → MessageReaction → Outcome)
    (c : Controller) (reaction : MessageReaction) (q : Page)
    (hcb : ∀ n, q.onReact = some n →
      (onReact n (c.setCurrentPage (Slot.page q)) reaction).thrown = none ∧
      (onReact n (c.setCurrentPage (Slot.page q)) reaction).state.currentPage = Slot.page q) :
    (reactStage onReact c reaction q).thrown = none ∧
    (reactStage onReact c reaction q).state.currentPage = Slot.page q := by
  unfold reactStage
  cases h : q.onReact with
  | none => exact ⟨rfl, rfl⟩
  | some n => exact hcb n h

theorem onCollect_resolved_quiet (onReact : Nat → Controller → MessageReaction → Outcome)
    (user : User) (c : Controller) (reaction : MessageReaction) (q : Page)
    (hb : backBranch c (emojiKey reaction.emoji) = false)
    (hn : nextPage c (emojiKey reaction.emoji) = Slot.page q)
    (hcb : ∀ n, q.onReact = some n →
      (onReact n (c.setCurrentPage (Slot.page q)) reaction).thrown = none ∧
      (onReact n (c.setCurrentPage (Slot.page q)) reaction).state.currentPage = Slot.page q) :
    onCollect onReact user c reaction =
      (syncReactions user reaction (reactStage onReact c reaction q).state q).update true := by
  rw [onCollect_resolved onReact user c reaction q hb hn]
  obtain ⟨h1, h2⟩ := reactStage_ok onReact c reaction q hcb
  rw [h1]
  dsimp only
  rw [h2]

/-- C10: when a collected reaction does not take the back branch and resolves
to a page `q` whose `onReact` is absent or returns without throwing and with
`q` still current, the handler ends without error on page `q` and the
reactions on the message are: none if `q.clearReactions` is set; otherwise,
if `q` declares `reactions`, exactly those keys (the same keys as a set, each
held by the bot alone, no key twice, in declared order when no key is
declared twice), `q.backEmoji` being among them only if it is listed;
otherwise the reactions as they were when `onReact` returned (those at the
start of the handler when `onReact` is absent) with the reaction of the
triggering user removed. -/
theorem resolved_transition_reactions
    (onReact : Nat → Controller → MessageReaction → Outcome)
    (user : User) (c : Controller) (reaction : MessageReaction) (q : Page)
    (hb : backBranch c (emojiKey reaction.emoji) = false)
    (hn : nextPage c (emojiKey reaction.emoji) = Slot.page q)
    (hcb : ∀ n, q.onReact = some n →
      (onReact n (c.setCurrentPage (Slot.page q)) reaction).thrown = none ∧
      (onReact n (c.setCurrentPage (Slot.page q)) reaction).state.currentPage = Slot.page q) :
    (onCollect onReact user c reaction).thrown = none ∧
    (onCollect onReact user c reaction).state.currentPage = Slot.page q ∧
    (q.clearReactions = true →
      (onCollect onReact user c reaction).state.botMessage.reactions = []) ∧
    (q.clearReactions = false → ∀ rs, q.reactions = some rs →
      (∀ k, k ∈ (onCollect onReact user c reaction).state.botMessage.keys ↔ k ∈ rs) ∧
      (onCollect onReact user c reaction).state.botMessage.keys.Nodup ∧
      (∀ e ∈ (onCollect onReact user c reaction).state.botMessage.reactions,
        e.2 = [(onCollect onReact user c reaction).state.botMessage.botId]) ∧
      (rs.Nodup → (onCollect onReact user c reaction).state.botMessage.keys = rs)) ∧
    (q.clearReactions = false → q.reactions = none →
      (onCollect onReact user c reaction).state.botMessage.reactions =
        dropUser (emojiKey reaction.emoji) user.id
          (reactStage onReact c reaction q).state.botMessage.reactions ∧
      (q.onReact = none →
        (onCollect onReact user c reaction).state.botMessage.reactions =
          dropUser (emojiKey reaction.emoji) user.id c.botMessage.reactions)) := by
  rw [onCollect_resolved_quiet onReact user c reaction q hb hn hcb]
  obtain ⟨_, h2⟩ := reactStage_ok onReact c reaction q hcb
  refine ⟨rfl, ?_, ?_, ?_, ?_⟩
  · rw [update_currentPage, (syncReactions_slots _ _ _ _).1, h2]
  · intro hc
    show (syncReactions user reaction (reactStage onReact c reaction q).state q).botMessage.reactions
      = []
    unfold syncReactions
    rw [if_pos hc]
    rfl
  · intro hc rs hrs
    have hm : ((syncReactions user reaction (reactStage onReact c reaction q).state q).update
        true).state.botMessage.reactions =
        addAll (reactStage onReact c reaction q).state.botMessage.botId rs [] ∧
        ((syncReactions user reaction (reactStage onReact c reaction q).state q).update
        true).state.botMessage.botId = (reactStage onReact c reaction q).state.botMessage.botId := by
      show (syncReactions user reaction (reactStage onReact c reaction q).state
        q).botMessage.reactions = _ ∧ (syncReactions user reaction
        (reactStage onReact c reaction q).state q).botMessage.botId = _
      unfold syncReactions
      rw [if_neg (by rw [hc]; exact Bool.false_ne_true), hrs]
      dsimp only
      rw [foldl_react]
      exact ⟨rfl, rfl⟩
    unfold Message.keys
    rw [hm.1, hm.2]
    refine ⟨?_, ?_, ?_, ?_⟩
    · intro k
      rw [addAll_mem_keys]
      simp
    · exact addAll_nodup_keys _ _ _ List.nodup_nil
    · exact addAll_users _ _ _ (fun e he => absurd he (List.not_mem_nil e))
    · intro hnd
      rw [addAll_fresh _ _ _ (by simpa using hnd)]
      simp [Function.comp_def]
  · intro hc hrs
    have hm : ((syncReactions user reaction (reactStage onReact c reaction q).state q).update
        true).state.botMessage.reactions =
        dropUser (emojiKey reaction.emoji) user.id
          (reactStage onReact c reaction q).state.botMessage.reactions := by
      show (syncReactions user reaction (reactStage onReact c reaction q).state
        q).botMessage.reactions = _
      unfold syncReactions
      rw [if_neg (by rw [hc]; exact Bool.false_ne_true), hrs]
      rfl
    refine ⟨hm, ?_⟩
    intro hq
    rw [hm]
    unfold reactStage
    rw [hq]
    rfl

/-- C10, in the menu over `{ A: { reactions: [B] } }`: the press of `A`
resolves to the page and leaves exactly `B` on the message. -/
theorem resolved_transition_reactions_witness :
    backBranch (userReacted (menu msg0 treeLeaf) "A" "u1") (emojiKey (std "A").emoji) = false ∧
    nextPage (userReacted (menu msg0 treeLeaf) "A" "u1") (emojiKey (std "A").emoji)
      = Slot.page pageLeaf ∧
    (userReacted (menu msg0 treeLeaf) "A" "u1").botMessage.reactions = [("A", ["bot", "u1"])] ∧
    leafOpened.botMessage.keys = ["B"] :=
  have h := resolved_transition_reactions noCallbacks userU
    (userReacted (menu msg0 treeLeaf) "A" "u1") (std "A") pageLeaf rfl rfl
    (fun n hn => by cases hn)
  ⟨rfl, rfl, rfl, (h.2.2.2.1 rfl ["B"] rfl).2.2.2 (by decide)⟩

/-! ## Unresolved keys -/

theorem dropUser_botKeys (k : Key) (u b : UserId) (l : List (Key × List UserId))
    (hub : u ≠ b) :
    ((dropUser k u l).filter (fun e => decide (b ∈ e.2))).map Prod.fst =
      (l.filter (fun e => decide (b ∈ e.2))).map Prod.fst := by
  induction l with
  | nil => rfl
  | cons e rest ih =>
    obtain ⟨k1, us⟩ := e
    unfold dropUser
    by_cases hk : k1 = k
    · rw [if_pos hk]
      have hmem : b ∈ us.filter (fun v => decide (v ≠ u)) ↔ b ∈ us := by
        rw [List.mem_filter]
        constructor
        · exact fun h => h.1
        · exact fun h => ⟨h, by simpa using fun h1 => hub h1.symm⟩
      by_cases he : (us.filter (fun v => decide (v ≠ u))).isEmpty = true
      · rw [if_pos he]
        have hnb : b ∉ us := by
          intro hb
          have := hmem.mpr hb
          rw [List.isEmpty_iff] at he
          rw [he] at this
          exact List.not_mem_nil _ this
        rw [List.filter_cons_of_neg (by simpa using hnb)]
      · rw [if_neg he]
        by_cases hb : b ∈ us
        · rw [List.filter_cons_of_pos (by simpa using hmem.mpr hb),
            List.filter_cons_of_pos (by simpa using hb)]
          rfl
        · rw [List.filter_cons_of_neg (by simpa using fun h => hb (hmem.mp h)),
            List.filter_cons_of_neg (by simpa using hb)]
    · rw [if_neg hk]
      by_cases hb : b ∈ us
      · rw [List.filter_cons_of_pos (by simpa using hb),
          List.filter_cons_of_pos (by simpa using hb), List.map_cons, List.map_cons, ih]
      · rw [List.filter_cons_of_neg (by simpa using hb),
          List.filter_cons_of_neg (by simpa using hb), ih]

/-- C8, as stated, fails: in the menu over `{ A: { reactions: [B] } }` with
the page of `A` current, the reaction `B` (accepted by the filter) is no back
trigger and resolves to no page, and after the handler no page is current:
`currentPage` is `undefined`, not the page it was. -/
theorem unresolved_key_clears_currentPage :
    filter (allReactions treeLeaf) userU (std "B") userU = true ∧
    (userReacted leafOpened "B" "u1").currentPage = Slot.page pageLeaf ∧
    backBranch (userReacted leafOpened "B" "u1") (emojiKey (std "B").emoji) = false ∧
    nextPage (userReacted leafOpened "B" "u1") (emojiKey (std "B").emoji) = Slot.undefined ∧
    (onCollect noCallbacks userU (userReacted leafOpened "B" "u1") (std "B")).state.currentPage
      = Slot.undefined ∧
    (onCollect noCallbacks userU (userReacted leafOpened "B" "u1") (std "B")).state.currentPage
      ≠ (userReacted leafOpened "B" "u1").currentPage := by
  refine ⟨by decide, rfl, rfl, rfl, rfl, ?_⟩
  show Slot.undefined ≠ Slot.page pageLeaf
  intro h
  cases h

/-- C8 (amended): with page `P` current, a collected reaction that does not
take the back branch and resolves to no page makes the handler assign
`undefined` to `currentPage`, so that afterwards no page is current and
`lastPage` is `P`; the handler ends without error, issues exactly the calls
that remove the reaction of the triggering user and edit the message with
the (now `undefined`) current page, and the reactions the bot placed on the
message are unchanged. -/
theorem unresolved_key_effect (onReact : Nat → Controller → MessageReaction → Outcome)
    (user : User) (c : Controller) (reaction : MessageReaction) (P : Page)
    (hP : c.currentPage = Slot.page P)
    (hb : backBranch c (emojiKey reaction.emoji) = false)
    (hn : (nextPage c (emojiKey reaction.emoji)).truthy = false) :
    (onCollect onReact user c reaction).thrown = none ∧
    (onCollect onReact user c reaction).state.currentPage = Slot.undefined ∧
    (onCollect onReact user c reaction).state.lastPage = Slot.page P ∧
    (onCollect onReact user c reaction).state.pages = c.pages ∧
    (onCollect onReact user c reaction).state.botMessage.reactions =
      dropUser (emojiKey reaction.emoji) user.id c.botMessage.reactions ∧
    (onCollect onReact user c reaction).state.botMessage.log =
      c.botMessage.log ++
        [Call.removeUser (emojiKey reaction.emoji) user.id, Call.edit Slot.undefined] ∧
    (user.id ≠ c.botMessage.botId →
      (onCollect onReact user c reaction).state.botMessage.botKeys = c.botMessage.botKeys) := by
  rw [onCollect_unresolved onReact user c reaction hb (nextPage_undefined c _ hn)]
  refine ⟨rfl, rfl, ?_, rfl, rfl, ?_, ?_⟩
  · show c.currentPage.or Slot.undefined = Slot.page P
    rw [hP]; rfl
  · show (c.botMessage.log ++ [Call.removeUser (emojiKey reaction.emoji) user.id]) ++
      [Call.edit Slot.undefined] = _
    rw [List.append_assoc]; rfl
  · intro hub
    exact dropUser_botKeys _ _ _ _ hub

/-- C8 (amended), in the menu over `{ A: { reactions: [B] } }` with the page
of `A` current and the user pressing `B`. -/
theorem unresolved_key_effect_witness :
    (userReacted leafOpened "B" "u1").currentPage = Slot.page pageLeaf ∧
    leafThenB.currentPage = Slot.undefined ∧
    leafThenB.lastPage = Slot.page pageLeaf ∧
    leafThenB.botMessage.botKeys = ["B"] :=
  have h := unresolved_key_effect noCallbacks userU (userReacted leafOpened "B" "u1")
    (std "B") pageLeaf rfl rfl rfl
  ⟨rfl, h.2.1, h.2.2.1, (h.2.2.2.2.2.2 (by decide)).trans rfl⟩

/-! ## Scope of key resolution -/

/-- C9, as stated, fails: in the menu over `{ A: {}, B: {} }` the page of `A`
is current and declares no children, yet the key `B` is resolved through the
top-level mapping and the page of `B` becomes current. -/
theorem childless_page_resolves_at_top_level :
    filter (allReactions treeAB) userU (std "B") userU = true ∧
    (userReacted abOpened "B" "u1").currentPage = Slot.page pageA ∧
    pageA.pages = none ∧
    backBranch (userReacted abOpened "B" "u1") (emojiKey (std "B").emoji) = false ∧
    nextPage (userReacted abOpened "B" "u1") (emojiKey (std "B").emoji)
      = lookupPage treeAB "B" ∧
    lookupPage treeAB "B" = Slot.page pageB ∧
    (onCollect noCallbacks userU (userReacted abOpened "B" "u1") (std "B")).state.currentPage
      = Slot.page pageB := by
  refine ⟨by decide, rfl, rfl, rfl, rfl, rfl, rfl⟩

theorem onCollect_currentPage (onReact : Nat → Controller → MessageReaction → Outcome)
    (user : User) (c : Controller) (reaction : MessageReaction)
    (hb : backBranch c (emojiKey reaction.emoji) = false)
    (hq : ∀ q n, nextPage c (emojiKey reaction.emoji) = Slot.page q → q.onReact = some n →
      (onReact n (c.setCurrentPage (Slot.page q)) reaction).state.currentPage = Slot.page q) :
    (onCollect onReact user c reaction).state.currentPage
      = nextPage c (emojiKey reaction.emoji) := by
  rcases nextPage_cases c (emojiKey reaction.emoji) with hn | ⟨q, hn⟩
  · rw [onCollect_unresolved onReact user c reaction hb hn, hn]
    rfl
  · rw [onCollect_resolved onReact user c reaction q hb hn, hn]
    have hst : (reactStage onReact c reaction q).state.currentPage = Slot.page q := by
      unfold reactStage
      cases h : q.onReact with
      | none => rfl
      | some n => exact hq q n hn h
    cases (reactStage onReact c reaction q).thrown with
    | some e => exact hst
    | none =>
      dsimp only
      rw [hst]
      dsimp only
      rw [update_currentPage, (syncReactions_slots _ _ _ _).1, hst]

/-- C9 (amended): for a collected key that does not take the back branch (and
with `onReact` functions that do not navigate), the page that becomes current
is looked up among the children of the current page when a page is current
and declares children; it is looked up in the top-level mapping when no page
is current and also when the current page declares no children. -/
theorem key_resolution_scope (onReact : Nat → Controller → MessageReaction → Outcome)
    (user : User) (c : Controller) (reaction : MessageReaction)
    (hb : backBranch c (emojiKey reaction.emoji) = false)
    (hq : ∀ q n, nextPage c (emojiKey reaction.emoji) = Slot.page q → q.onReact = some n →
      (onReact n (c.setCurrentPage (Slot.page q)) reaction).state.currentPage = Slot.page q) :
    (∀ p children, c.currentPage = Slot.page p → p.pages = some children →
      (onCollect onReact user c reaction).state.currentPage
        = lookupPage children (emojiKey reaction.emoji)) ∧
    (∀ p, c.currentPage = Slot.page p → p.pages = none →
      (onCollect onReact user c reaction).state.currentPage
        = lookupPage c.pages (emojiKey reaction.emoji)) ∧
    (c.currentPage.truthy = false →
      (onCollect onReact user c reaction).state.currentPage
        = lookupPage c.pages (emojiKey reaction.emoji)) := by
  rw [onCollect_currentPage onReact user c reaction hb hq]
  refine ⟨?_, ?_, ?_⟩
  · intro p children hp hc
    unfold nextPage
    rw [hp]
    dsimp only
    rw [hc]
  · intro p hp hc
    unfold nextPage
    rw [hp]
    dsimp only
    rw [hc]
  · intro ht
    unfold nextPage
    cases hc : c.currentPage with
    | page p => rw [hc] at ht; cases ht
    | null => rfl
    | undefined => rfl

/-- C9 (amended), in the menu over `{ A: {}, B: {} }` with the page of `A`
current and the user pressing `B`. -/
theorem key_resolution_scope_witness :
    backBranch (userReacted abOpened "B" "u1") (emojiKey (std "B").emoji) = false ∧
    (userReacted abOpened "B" "u1").currentPage = Slot.page pageA ∧
    pageA.pages = none ∧
    (onCollect noCallbacks userU (userReacted abOpened "B" "u1") (std "B")).state.currentPage
      = Slot.page pageB :=
  have h := key_resolution_scope noCallbacks userU (userReacted abOpened "B" "u1")
    (std "B") rfl (fun _ _ _ _ => rfl)
  ⟨rfl, rfl, rfl, (h.2.1 pageA rfl rfl).trans rfl⟩

/-! ## The menu scenario -/

theorem back_of_canBack (c : Controller) (h : c.canBack = true) :
    c.back = { state := (((c.setCurrentPage c.lastPage).setLastPage c.currentPage).update
      false).state, thrown := none } := by
  unfold Controller.back
  rw [if_pos h]

theorem childMenu_first (onReact : Nat → Controller → MessageReaction → Outcome) (user : User)
    (m : Message) (content : String) (K2 : Key) (r1 : MessageReaction) :
    onCollect onReact user (childMenu user m content (emojiKey r1.emoji) K2) r1 =
      (syncReactions user r1
        ((childMenu user m content (emojiKey r1.emoji) K2).setCurrentPage
          (Slot.page (pageChild content K2))) (pageChild content K2)).update true := by
  have hn : nextPage (childMenu user m content (emojiKey r1.emoji) K2) (emojiKey r1.emoji)
      = Slot.page (pageChild content K2) := by
    simp [nextPage, childMenu, userReacted, menu, Controller.new, lookupPage, List.lookup]
  rw [onCollect_resolved_quiet onReact user
    (childMenu user m content (emojiKey r1.emoji) K2) r1 (pageChild content K2) rfl hn
    (fun n hn => by cases hn)]
  rfl

/-- C3, as stated, fails: in the menu over `{ K1: { reactions: [K2],
backEmoji: K2 } }` the user presses `K1` and then `K2`; the back branch fires
and does not throw, and afterwards the child page is still current (not
`null`) and `canBack` is true. -/
theorem menu_back_from_first_page_stays :
    (onCollect noCallbacks userU (childMenu userU msg0 "child" "K1" "K2") (std "K1")).state.currentPage
      = Slot.page (pageChild "child" "K2") ∧
    backBranch (childOpened noCallbacks userU msg0 "child" "K1" "K2" (std "K1"))
      (emojiKey (std "K2").emoji) = true ∧
    (onCollect noCallbacks userU (childOpened noCallbacks userU msg0 "child" "K1" "K2" (std "K1"))
      (std "K2")).thrown = none ∧
    (onCollect noCallbacks userU (childOpened noCallbacks userU msg0 "child" "K1" "K2" (std "K1"))
      (std "K2")).state.currentPage = Slot.page (pageChild "child" "K2") ∧
    (onCollect noCallbacks userU (childOpened noCallbacks userU msg0 "child" "K1" "K2" (std "K1"))
      (std "K2")).state.currentPage ≠ Slot.null ∧
    (onCollect noCallbacks userU (childOpened noCallbacks userU msg0 "child" "K1" "K2" (std "K1"))
      (std "K2")).state.canBack = true := by
  refine ⟨rfl, rfl, rfl, rfl, ?_, rfl⟩
  show Slot.page (pageChild "child" "K2") ≠ Slot.null
  intro h
  cases h

/-- C3 (amended): in a fresh menu over `{ K1: { reactions: [K2], backEmoji:
K2 } }`, when the authorised user reacts `K1` the child page becomes current
and the reactions on the message become `[K2]`; the setter has stored the
child in `lastPage` as well, so when the user then reacts `K2` the back
branch fires, does not throw, and afterwards the child page is still current,
`lastPage` is the child page, `canBack` is true and the reactions are `[K2]`. -/
theorem menu_scenario (onReact : Nat → Controller → MessageReaction → Outcome) (user : User)
    (m : Message) (content : String) (K1 K2 : Key) (r1 r2 : MessageReaction)
    (h1 : emojiKey r1.emoji = K1) (h2 : emojiKey r2.emoji = K2) :
    ((menu m [(K1, pageChild content K2)]).currentPage = Slot.null ∧
      (menu m [(K1, pageChild content K2)]).canBack = false) ∧
    ((onCollect onReact user (childMenu user m content K1 K2) r1).thrown = none ∧
      (onCollect onReact user (childMenu user m content K1 K2) r1).state.currentPage
        = Slot.page (pageChild content K2) ∧
      (onCollect onReact user (childMenu user m content K1 K2) r1).state.botMessage.keys
        = [K2]) ∧
    (backBranch (childOpened onReact user m content K1 K2 r1) (emojiKey r2.emoji) = true ∧
      (onCollect onReact user (childOpened onReact user m content K1 K2 r1) r2).thrown = none ∧
      (onCollect onReact user (childOpened onReact user m content K1 K2 r1) r2).state.currentPage
        = Slot.page (pageChild content K2) ∧
      (onCollect onReact user (childOpened onReact user m content K1 K2 r1) r2).state.lastPage
        = Slot.page (pageChild content K2) ∧
      (onCollect onReact user (childOpened onReact user m content K1 K2 r1) r2).state.canBack
        = true ∧
      (onCollect onReact user (childOpened onReact user m content K1 K2 r1) r2).state.botMessage.keys
        = [K2]) := by
  subst h1 h2
  have e1 := childMenu_first onReact user m content (emojiKey r2.emoji) r1
  have hcur : (childOpened onReact user m content (emojiKey r1.emoji) (emojiKey r2.emoji)
      r1).currentPage = Slot.page (pageChild content (emojiKey r2.emoji)) := by
    unfold childOpened
    rw [e1]
    rfl
  have hlast : (childOpened onReact user m content (emojiKey r1.emoji) (emojiKey r2.emoji)
      r1).lastPage = Slot.page (pageChild content (emojiKey r2.emoji)) := by
    unfold childOpened
    rw [e1]
    rfl
  have hbot : (childOpened onReact user m content (emojiKey r1.emoji) (emojiKey r2.emoji)
      r1).botMessage.botId = m.botId := by
    unfold childOpened
    rw [e1]
    show (List.foldl Message.react _ _).botId = _
    rw [foldl_react]
    show (List.foldl Message.react m _).botId = _
    rw [foldl_react]
  have hcan : (childOpened onReact user m content (emojiKey r1.emoji) (emojiKey r2.emoji)
      r1).canBack = true := by
    unfold Controller.canBack
    rw [hlast]; rfl
  have hbb : backBranch (childOpened onReact user m content (emojiKey r1.emoji)
      (emojiKey r2.emoji) r1) (emojiKey r2.emoji) = true := by
    unfold backBranch
    rw [hcur]
    dsimp only
    rw [hcan]
    simp [pageChild, Page.backEmoji]
  have hbs := back_slots _ hcan
  refine ⟨⟨rfl, rfl⟩, ⟨?_, ?_, ?_⟩, hbb, ?_, ?_, ?_, ?_, ?_⟩
  · rw [e1]; rfl
  · rw [e1]; rfl
  · rw [e1]; rfl
  · rw [onCollect_back onReact user _ r2 hbb]; exact hbs.1
  · rw [onCollect_back onReact user _ r2 hbb, hbs.2.1, hlast]
  · rw [onCollect_back onReact user _ r2 hbb, hbs.2.2.1, hcur]
  · rw [onCollect_back onReact user _ r2 hbb]
    unfold Controller.canBack
    rw [hbs.2.2.1, hcur]; rfl
  · rw [onCollect_back onReact user _ r2 hbb, back_of_canBack _ hcan]
    unfold Message.keys
    dsimp only
    rw [(update_false_reactions _ (pageChild content (emojiKey r2.emoji)) (by
      show (childOpened onReact user m content (emojiKey r1.emoji) (emojiKey r2.emoji)
        r1).lastPage = _
      exact hlast)).1]
    by_cases hk : emojiKey r2.emoji = ""
    · simp [resetKeys, pageChild, Page.reactions, Page.backEmoji, Option.filter, hk, addAll,
        addUser]
    · simp [resetKeys, pageChild, Page.reactions, Page.backEmoji, Option.filter, hk, addAll,
        addUser]

/-- C3 (amended), with the standard emoji `K1` and `K2`. -/
theorem menu_scenario_witness :
    emojiKey (std "K1").emoji = "K1" ∧ emojiKey (std "K2").emoji = "K2" ∧
    (onCollect noCallbacks userU (childMenu userU msg0 "child" "K1" "K2")
      (std "K1")).state.botMessage.keys = ["K2"] ∧
    (onCollect noCallbacks userU (childOpened noCallbacks userU msg0 "child" "K1" "K2" (std "K1"))
      (std "K2")).state.lastPage = Slot.page (pageChild "child" "K2") :=
  have h := menu_scenario noCallbacks userU msg0 "child" "K1" "K2" (std "K1") (std "K2") rfl rfl
  ⟨rfl, rfl, h.2.1.2.2, h.2.2.2.2.2.1⟩

/-! ## The yes/no prompt -/

theorem yesNo_result (o : AsyncCollectorOptions) (m : Message)
    (caught : List MessageReaction) :
    (createYesNoReactionCollector o m caught).2 = true ↔
      ∃ r rest, caught = r :: rest ∧ ∃ k ks, o.reactions = k :: ks ∧ yesNoKey r.emoji = some k := by
  unfold createYesNoReactionCollector
  cases caught with
  | nil => simp
  | cons r rest =>
    dsimp only
    unfold indexOfIsZero
    cases hk : yesNoKey r.emoji with
    | none => simp [hk]
    | some x =>
      cases hr : o.reactions with
      | nil => simp
      | cons y ys =>
        show decide (y = x) = true ↔ _
        constructor
        · intro h
          have hyx : y = x := of_decide_eq_true h
          exact ⟨r, rest, rfl, y, ys, rfl, by rw [hk, hyx]⟩
        · rintro ⟨r1, rest1, hc, k, ks, hks, hy⟩
          injection hc with hc1 _
          injection hks with hk1 _
          subst hc1
          rw [hk] at hy
          injection hy with hy1
          apply decide_eq_true
          rw [hk1, hy1]

theorem yesNo_standard_emoji (o : AsyncCollectorOptions) (m : Message)
    (r : MessageReaction) (rest : List MessageReaction) (yes : Key) (others : List Key)
    (hid : r.emoji.id = none) (hname : r.emoji.name ≠ "") (ho : o.reactions = yes :: others) :
    ((createYesNoReactionCollector o m (r :: rest)).2 = true ↔ emojiKey r.emoji = yes) ∧
    (createYesNoReactionCollector o m []).2 = false := by
  refine ⟨?_, rfl⟩
  rw [yesNo_result]
  have hkey : emojiKey r.emoji = r.emoji.name := by
    unfold emojiKey
    rw [hid]
  have hyn : yesNoKey r.emoji = some r.emoji.name := by
    unfold yesNoKey
    rw [if_neg hname]
  rw [hkey]
  constructor
  · rintro ⟨r1, rest1, hc, k, ks, hk, hy⟩
    rw [ho] at hk
    injection hc with hc1 _
    injection hk with hk1 _
    subst hc1
    rw [hyn] at hy
    injection hy with hy1
    rw [hy1, hk1]
  · intro h
    exact ⟨r, rest, rfl, yes, others, ho, by rw [hyn, h]⟩

/-- C6 fails on the code for a custom emoji: with the configured keys
`[id, "❌"]`, where `id` is the id of a custom emoji named `yes`, the filter
of the prompt accepts the reaction with that emoji, its key (the custom-emoji
id, as the `menu` handler and `__createReactionCollector` compute it) equals
the first configured key, and the prompt resolves `false`, because the result
is computed from `emoji.name || emoji.id`. -/
theorem yesNo_custom_emoji_resolves_false :
    filter customYesOptions.reactions customYesOptions.user customYesReaction userU = true ∧
    emojiKey customYesReaction.emoji = "700000000000000001" ∧
    customYesOptions.reactions.head? = some (emojiKey customYesReaction.emoji) ∧
    yesNoKey customYesReaction.emoji = some "yes" ∧
    (createYesNoReactionCollector customYesOptions msg0 [customYesReaction]).2 = false := by
  refine ⟨by decide, by decide, by decide, by decide, by decide⟩

end ReactionCollector
